import Mathlib

/-!
Verification development for the MACD parameter optimizer (`src/app.py`).

The program scans a grid of MACD parameter triples `(fast, slow, signal)`
over a historical price series, detects bullish MACD/signal crossovers,
simulates a bounded-horizon take-profit trade per crossover, scores each
combination by hit accuracy, and reports the top-10 combinations.

The shallow embedding below translates the relevant parts of `app.py`
into Lean.  Prices and indicator values are rationals (`ℚ`); a missing
value (pandas `NaN`, arising from EMA warm-up via `min_periods`) is
modelled as `none` in `Option ℚ`, with comparisons against a missing
value yielding `false`, exactly as NaN comparisons do in pandas.
Dates are modelled as integers (ordinal days); `pd.to_datetime` parsing
is outside the scope of the claims checked here.
-/

namespace StMac

/-- One row of the price table after validation: a date and a closing
price (`app.py` requires columns "Date" and "Close"). -/
structure Bar where
  date : ℤ
  close : ℚ
deriving DecidableEq, Repr, Inhabited

/-! ## EMA computations

`app.py` line 162-165 computes the fast and slow price EMAs with
`ta.trend.ema_indicator(df["Close"], window=n)`, which is implemented in
the `ta` library as `series.ewm(span=n, min_periods=n, adjust=False).mean()`:
the recursive EMA `ema[0] = x[0]`, `ema[i] = α·x[i] + (1-α)·ema[i-1]`
with `α = 2/(n+1)`, with the first `n-1` outputs masked to NaN by
`min_periods=n`.

Line 166 computes the signal line with `macd_line.ewm(span=signal).mean()`,
which uses pandas' *default* `adjust=True`: the output at position `t` is
the weighted average `Σ_{j≤t} (1-α)^(t-j)·x[j] / Σ_{j≤t} (1-α)^(t-j)`
over the observations seen so far (missing observations contribute
nothing to numerator or denominator, but weights decay by absolute
position, pandas' default `ignore_na=False`). -/

/-- Tail of the recursive (adjust=False) EMA: `prev` is the previous EMA
value, each new value is `α·x + (1-α)·prev`. -/
def emaRecAux (a prev : ℚ) : List ℚ → List ℚ
  | [] => []
  | x :: xs =>
    let v := a * x + (1 - a) * prev
    v :: emaRecAux a v xs

/-- Recursive EMA (pandas `ewm(span, adjust=False).mean()` on a NaN-free
series): seeded with the first value. -/
def emaRec (a : ℚ) : List ℚ → List ℚ
  | [] => []
  | x :: xs => x :: emaRecAux a x xs

/-- `ta.trend.ema_indicator(close, window=n)` =
`close.ewm(span=n, min_periods=n, adjust=False).mean()`: the recursive
EMA with `α = 2/(n+1)`, with output position `i` masked to NaN while
fewer than `n` observations have been seen (`i + 1 < n`). -/
def taEma (n : ℕ) (close : List ℚ) : List (Option ℚ) :=
  (emaRec (2 / (n + 1)) close).enum.map
    (fun p => if p.1 + 1 < n then none else some p.2)

/-- Elementwise subtraction with NaN propagation (`NaN - x = NaN`). -/
def sub2 (a b : Option ℚ) : Option ℚ :=
  match a, b with
  | some x, some y => some (x - y)
  | _, _ => none

/-- `app.py` lines 162-165: `macd_line = ema_indicator(close, fast) -
ema_indicator(close, slow)`. -/
def macdLine (close : List ℚ) (fast slow : ℕ) : List (Option ℚ) :=
  List.zipWith sub2 (taEma fast close) (taEma slow close)

/-- One step of pandas `ewm(span, adjust=True, ignore_na=False).mean()`:
`num` and `den` are the running weighted numerator and denominator; both
decay by `(1-α)` each bar; an observed value `v` adds `v` to `num` and
`1` to `den`; a missing value adds nothing.  The output is NaN while the
denominator is zero (no observation seen yet). -/
def ewmAdjustedAux (a num den : ℚ) : List (Option ℚ) → List (Option ℚ)
  | [] => []
  | x :: xs =>
    let num' := (1 - a) * num + x.getD 0
    let den' := (1 - a) * den + (if x.isSome then 1 else 0)
    (if den' = 0 then none else some (num' / den')) :: ewmAdjustedAux a num' den' xs

/-- pandas `series.ewm(span, adjust=True).mean()` (the default `adjust`)
with smoothing factor `a = 2/(span+1)` passed in explicitly. -/
def ewmAdjusted (a : ℚ) (xs : List (Option ℚ)) : List (Option ℚ) :=
  ewmAdjustedAux a 0 0 xs

/-- `app.py` line 166: `signal_line = macd_line.ewm(span=signal).mean()` —
pandas default `adjust=True`, `min_periods=0`, `ignore_na=False`. -/
def signalLine (macd : List (Option ℚ)) (signal : ℕ) : List (Option ℚ) :=
  ewmAdjusted (2 / (signal + 1)) macd

/-! ## Crossover detection (`app.py` lines 171-176) -/

/-- pandas `<` on possibly-NaN values: any comparison with NaN is false. -/
def oLt (a b : Option ℚ) : Bool :=
  match a, b with
  | some x, some y => decide (x < y)
  | _, _ => false

/-- pandas `series.shift(1)`: a NaN enters at position 0, the last value
drops off; an empty series stays empty. -/
def shift1 (xs : List (Option ℚ)) : List (Option ℚ) :=
  match xs with
  | [] => []
  | l => none :: l.dropLast

/-- `app.py` lines 171-174:
`(MACD.shift(1) < Signal.shift(1)) & (MACD > Signal)`, elementwise. -/
def crossoverFlags (macd sig : List (Option ℚ)) : List Bool :=
  List.zipWith (fun a b => a && b)
    (List.zipWith oLt (shift1 macd) (shift1 sig))
    (List.zipWith (fun a b => oLt b a) macd sig)

/-- Positions of the `True` entries of a boolean column, in ascending
order (`df[df["Crossover"]].index` on a 0..n-1 positional index). -/
def trueIndices (bs : List Bool) : List ℕ :=
  (bs.enum.filter (fun p => p.2)).map (fun p => p.1)

/-- `app.py` line 176: `entries = df[df["Crossover"]].index`. -/
def crossoverIndices (macd sig : List (Option ℚ)) : List ℕ :=
  trueIndices (crossoverFlags macd sig)

/-! ## Trade simulation (`app.py` lines 185-220) -/

/-- Python `round(q, 2)` modelled on exact rationals: round half to even
at the second decimal.  (Python rounds the nearest binary double; on the
non-boundary values used in this development the two agree.) -/
def roundHalfEven (q : ℚ) : ℤ :=
  if q - ⌊q⌋ < 1 / 2 then ⌊q⌋
  else if 1 / 2 < q - ⌊q⌋ then ⌊q⌋ + 1
  else if 2 ∣ ⌊q⌋ then ⌊q⌋ else ⌊q⌋ + 1

/-- `round(·, 2)` as used at `app.py` lines 218 and 231. -/
def round2 (q : ℚ) : ℚ := (roundHalfEven (q * 100) : ℚ) / 100

/-- One simulated trade (`trades_records.append({...})`, lines 212-220),
extended with the entry/exit positions so the positional claims can be
stated. -/
structure Trade where
  entryIdx : ℕ
  entryDate : ℤ
  entryPrice : ℚ
  exitIdx : ℕ
  exitDate : ℤ
  exitPrice : ℚ
  pctReturn : ℚ
  targetHit : Bool
deriving DecidableEq, Repr

/-- `app.py` line 188: `target_price = entry_price * (1 + target_pct / 100)`. -/
def targetPrice (df : List Bar) (entry : ℕ) (targetPct : ℚ) : ℚ :=
  (df.getD entry default).close * (1 + targetPct / 100)

/-- `app.py` line 190: `last_idx = min(entry + max_days, len(df) - 1)`. -/
def lastWindowIdx (df : List Bar) (entry maxDays : ℕ) : ℕ :=
  min (entry + maxDays) (df.length - 1)

/-- The forward window `df.loc[entry+1 : last_idx]` of lines 190-191 with
`last_idx = min(entry + max_days, len(df) - 1)`: the rows with positions
`entry+1 .. last_idx` inclusive (after `reset_index(drop=True)` labels
coincide with positions), each paired with its position. -/
def tradeWindow (df : List Bar) (entry maxDays : ℕ) : List (ℕ × Bar) :=
  (List.range' (entry + 1) (lastWindowIdx df entry maxDays + 1 - (entry + 1))).map
    (fun i => (i, df.getD i default))

/-- The per-entry trade simulation of `app.py` lines 185-220:
`hit_rows = subset[subset["Close"] >= target_price]`; if nonempty the
exit is its first row (`target_hit = True`); otherwise the last row of
the window; if the window itself is empty, the entry bar. -/
def simulateTrade (df : List Bar) (entry : ℕ) (targetPct : ℚ) (maxDays : ℕ) : Trade :=
  let entryBar := df.getD entry default
  let entryPrice := entryBar.close
  let subset := tradeWindow df entry maxDays
  let hitRows := subset.filter (fun p => decide (targetPrice df entry targetPct ≤ p.2.close))
  let exitCell : (ℕ × Bar) × Bool :=
    match hitRows.head? with
    | some hr => (hr, true)
    | none =>
      match subset.getLast? with
      | some lastRow => (lastRow, false)
      | none => ((entry, entryBar), false)
  { entryIdx := entry
    entryDate := entryBar.date
    entryPrice := entryPrice
    exitIdx := exitCell.1.1
    exitDate := exitCell.1.2.date
    exitPrice := exitCell.1.2.close
    pctReturn := round2 ((exitCell.1.2.close - entryPrice) / entryPrice * 100)
    targetHit := exitCell.2 }

/-! ## Per-combination scoring (`app.py` lines 160-234)

For each `(fast, slow, signal)` triple the inner loop recomputes the MACD
and signal lines, detects crossovers, simulates one trade per crossover,
and scores the combination.  Python's `hits / total_trades` on line 222
raises `ZeroDivisionError` when `total_trades == 0`; the embedding makes
that observable by returning `Except.error` there (the surrounding
`try/except` of lines 135-241 would catch it and abort the scan). -/

/-- One ranked result row (`results.append({...})`, lines 225-232) plus
the recorded trade log of that combination (`trades_dict`, line 234).
`accuracyPct` is the rounded "Accuracy%" column. -/
structure ComboResult where
  fast : ℕ
  slow : ℕ
  signal : ℕ
  totalTrades : ℕ
  hits : ℕ
  accuracyPct : ℚ
  tradeLog : List Trade
deriving DecidableEq, Repr

/-- The MACD line of one combination (lines 162-165) on the close
column of the data. -/
def comboMacd (data : List Bar) (fast slow : ℕ) : List (Option ℚ) :=
  macdLine (data.map Bar.close) fast slow

/-- The signal line of one combination (line 166). -/
def comboSignal (data : List Bar) (fast slow signal : ℕ) : List (Option ℚ) :=
  signalLine (comboMacd data fast slow) signal

/-- The detected entries of one combination (lines 171-176). -/
def comboEntries (data : List Bar) (fast slow signal : ℕ) : List ℕ :=
  crossoverIndices (comboMacd data fast slow) (comboSignal data fast slow signal)

/-- The trade log of one combination: one simulated trade per detected
entry, in entry order (the loop at lines 185-220). -/
def comboTrades (data : List Bar) (fast slow signal : ℕ) (targetPct : ℚ)
    (maxDays : ℕ) : List Trade :=
  (comboEntries data fast slow signal).map (fun e => simulateTrade data e targetPct maxDays)

/-- `hits`: the number of trades whose target was hit (the counter
incremented at line 198, equivalently the count of `Target Hit = True`
rows of the trade log). -/
def comboHits (data : List Bar) (fast slow signal : ℕ) (targetPct : ℚ)
    (maxDays : ℕ) : ℕ :=
  ((comboTrades data fast slow signal targetPct maxDays).filter (fun t => t.targetHit)).length

/-- Lines 160-234: evaluate one `(fast, slow, signal)` combination.
`.ok none` = combination rejected by a filter; `.ok (some r)` = a
result row (with its trade log) is recorded; `.error` = the
`ZeroDivisionError` of `hits / total_trades` at line 222. -/
def evalCombo (data : List Bar) (fast slow signal : ℕ) (targetPct : ℚ)
    (maxDays minTrades : ℕ) (minAccuracy : ℚ) : Except String (Option ComboResult) :=
  let totalTrades := (comboEntries data fast slow signal).length
  if totalTrades < minTrades then .ok none
  else
    let hits := comboHits data fast slow signal targetPct maxDays
    if totalTrades = 0 then .error "ZeroDivisionError"
    else
      let accuracy := (hits : ℚ) / (totalTrades : ℚ) * 100
      if minAccuracy ≤ accuracy then
        .ok (some { fast := fast, slow := slow, signal := signal,
                    totalTrades := totalTrades, hits := hits,
                    accuracyPct := round2 accuracy,
                    tradeLog := comboTrades data fast slow signal targetPct maxDays })
      else .ok none

/-! ## The parameter grid and the optimization driver -/

/-- Python `range(a, b + 1)` (lines 88-90): the integers `a .. b`
inclusive, empty when `b < a`. -/
def rangeIncl (a b : ℕ) : List ℕ := List.range' a (b + 1 - a)

/-- Lines 95-99: `total_combinations`, counting `len(signal_range)` for
every `(fast, slow)` pair of the ranges with `fast < slow`. -/
def totalCombinations (fastR slowR sigR : List ℕ) : ℕ :=
  (fastR.map (fun fast => (slowR.filter (fun slow => fast < slow)).length * sigR.length)).sum

/-- The grid enumeration order of the nested loops at lines 136-140:
lexicographic in `(fast, slow, signal)`, skipping pairs with
`fast ≥ slow`. -/
def gridTriples (fastR slowR sigR : List ℕ) : List (ℕ × ℕ × ℕ) :=
  fastR.flatMap (fun fast =>
    slowR.flatMap (fun slow =>
      if fast < slow then sigR.map (fun s => (fast, slow, s)) else []))

/-- The scan over the grid (lines 136-241): results are appended in
enumeration order; an exception aborts the remaining combinations and is
surfaced next to the partial results (the `except` clause at line 240
shows the error but the collected `results` are still displayed). -/
def scanGrid (data : List Bar) (targetPct : ℚ) (maxDays minTrades : ℕ)
    (minAccuracy : ℚ) : List (ℕ × ℕ × ℕ) → List ComboResult × Option String
  | [] => ([], none)
  | t :: ts =>
    match evalCombo data t.1 t.2.1 t.2.2 targetPct maxDays minTrades minAccuracy with
    | .error e => ([], some e)
    | .ok none => scanGrid data targetPct maxDays minTrades minAccuracy ts
    | .ok (some r) =>
      let rest := scanGrid data targetPct maxDays minTrades minAccuracy ts
      (r :: rest.1, rest.2)

/-- Lines 95-241: the check `total_combinations == 0` (lines 107-109)
runs `st.error(...)` and `st.stop()` before the scan; otherwise the grid
is scanned. -/
def runOptimization (data : List Bar) (fastMin fastMax slowMin slowMax sigMin sigMax : ℕ)
    (targetPct : ℚ) (maxDays minTrades : ℕ) (minAccuracy : ℚ) :
    Except String (List ComboResult × Option String) :=
  let fastR := rangeIncl fastMin fastMax
  let slowR := rangeIncl slowMin slowMax
  let sigR := rangeIncl sigMin sigMax
  if totalCombinations fastR slowR sigR = 0 then
    .error "Invalid parameter ranges: Fast EMA must be less than Slow EMA."
  else
    .ok (scanGrid data targetPct maxDays minTrades minAccuracy (gridTriples fastR slowR sigR))

/-! ## EMA recomputation trace (`app.py` lines 140-166)

The signal loop (line 140) contains the EMA computations (lines 162-165):
every iteration of the `signal` loop recomputes `ema(close, fast)` and
`ema(close, slow)` afresh.  The trace below records, for one `(fast,
slow)` pair, each EMA computation event `(window, result)` performed by
that loop, and the MACD line each iteration goes on to use. -/

/-- EMA computation events of the signal loop for one `(fast, slow)`
pair: each signal value triggers `ta.trend.ema_indicator(close, fast)`
(line 163) and then `ta.trend.ema_indicator(close, slow)` (line 164). -/
def emaComputationTrace (close : List ℚ) (fast slow : ℕ) (sigR : List ℕ) :
    List (ℕ × List (Option ℚ)) :=
  sigR.flatMap (fun _ => [(fast, taEma fast close), (slow, taEma slow close)])

/-- The MACD line each iteration of the signal loop computes and uses
(lines 162-165). -/
def macdLinesUsed (close : List ℚ) (fast slow : ℕ) (sigR : List ℕ) :
    List (List (Option ℚ)) :=
  sigR.map (fun _ => macdLine close fast slow)

/-! ## Result ranking (`app.py` lines 244-254)

`pd.DataFrame(results).sort_values("Accuracy%", ascending=False)` uses
pandas `nargsort`: an *ascending* `argsort` with numpy's default
`kind='quicksort'`, whose permutation is then reversed wholesale for
`ascending=False`.  For the result-list sizes relevant here (≤ 15 rows)
numpy's introsort is its insertion sort, which is stable, so the sort is
modelled as a stable insertion sort ascending by the key followed by a
reversal.  Note the reversal sends tied rows into *reverse* insertion
order. -/

/-- Stable sort, ascending by key: insertion sort, in which an element
is inserted before the first element of key ≥ its own, so among equal
keys an earlier element stays earlier (numpy's insertion sort, used by
`argsort(kind='quicksort')` below its small-array cutoff, is stable in
the same sense). -/
def sortByKeyAsc {α κ : Type} [LinearOrder κ] (key : α → κ) (l : List α) : List α :=
  l.insertionSort (fun a b => key a ≤ key b)

/-- Lines 245-249: sort the collected results descending by the
"Accuracy%" column (stable ascending argsort, then reverse). -/
def sortResultsDesc (rs : List ComboResult) : List ComboResult :=
  (sortByKeyAsc (fun r => r.accuracyPct) rs).reverse

/-- Line 254: `top10 = results_df.head(10)`. -/
def top10 (rs : List ComboResult) : List ComboResult :=
  (sortResultsDesc rs).take 10

/-! ## Pre-scan input handling (`app.py` lines 58-83) -/

/-- Lines 62-63: `data.sort_values("Date")` — sort the rows ascending by
date before anything else touches them. -/
def sortByDate (rows : List Bar) : List Bar :=
  sortByKeyAsc (fun b => b.date) rows

/-- `st.number_input(label, min_value, max_value, value)`: Streamlit
raises a `StreamlitAPIException` when the default value does not lie in
`[min_value, max_value]` (in particular when `min_value > max_value`);
otherwise the widget yields its value. -/
def numberInput (lo hi val : ℕ) : Except String ℕ :=
  if lo ≤ val ∧ val ≤ hi then .ok val else .error "StreamlitAPIException"

/-- Lines 62-83 ahead of the scan: the rows are sorted by date (line 63),
then the `max_days` widget is declared as
`st.number_input("Max Trading Days to Hit Target", 1, len(data), 10)`
(line 83), which raises whenever `len(data) < 10` — in particular for
any series of fewer than 2 bars.  On success the sorted data and the
widget value reach the scan. -/
def preScan (rows : List Bar) : Except String (List Bar × ℕ) :=
  let data := sortByDate rows
  match numberInput 1 data.length 10 with
  | .error e => .error e
  | .ok maxDays => .ok (data, maxDays)

/-- A small 10-bar price series used as a concrete test vector: a dip
followed by two rallies, so the (2,3,2) combination produces two
crossover entries (at positions 4 and 8) that both hit a 5% target the
next bar. -/
def sampleData : List Bar :=
  [⟨0, 10⟩, ⟨1, 9⟩, ⟨2, 8⟩, ⟨3, 7⟩, ⟨4, 10⟩, ⟨5, 12⟩, ⟨6, 11⟩, ⟨7, 10⟩, ⟨8, 13⟩, ⟨9, 15⟩]

/-! ## Helper lemmas -/

theorem sortByKeyAsc_sorted {α κ : Type} [LinearOrder κ] (key : α → κ) (l : List α) :
    (sortByKeyAsc key l).Sorted (fun a b => key a ≤ key b) := by
  haveI : IsTotal α (fun a b => key a ≤ key b) := ⟨fun a b => le_total (key a) (key b)⟩
  haveI : IsTrans α (fun a b => key a ≤ key b) := ⟨fun _ _ _ hab hbc => le_trans hab hbc⟩
  exact List.sorted_insertionSort _ l

theorem sortByKeyAsc_perm {α κ : Type} [LinearOrder κ] (key : α → κ) (l : List α) :
    (sortByKeyAsc key l).Perm l :=
  List.perm_insertionSort _ l

/-! ## Claim C7 -/

/-- Claim C7: if the parameter grid admits zero valid combinations (no
pair with `fast < slow`), the invalid-grid condition is reported to the
caller before any scanning or per-combination computation starts, and
the run stops rather than producing results. -/
theorem C7_invalid_grid_reported (data : List Bar)
    (fastMin fastMax slowMin slowMax sigMin sigMax : ℕ) (targetPct : ℚ)
    (maxDays minTrades : ℕ) (minAccuracy : ℚ)
    (h : totalCombinations (rangeIncl fastMin fastMax) (rangeIncl slowMin slowMax)
      (rangeIncl sigMin sigMax) = 0) :
    runOptimization data fastMin fastMax slowMin slowMax sigMin sigMax targetPct
        maxDays minTrades minAccuracy =
      Except.error "Invalid parameter ranges: Fast EMA must be less than Slow EMA." := by
  simp only [runOptimization, h, if_pos]

/-- Witness for C7, the spec's Scenario D: `fast` forced to 10, `slow`
forced to 5 gives zero valid combinations and the run errors out. -/
theorem C7_invalid_grid_reported_witness :
    totalCombinations (rangeIncl 10 10) (rangeIncl 5 5) (rangeIncl 2 3) = 0 ∧
    runOptimization sampleData 10 10 5 5 2 3 5 10 1 40 =
      Except.error "Invalid parameter ranges: Fast EMA must be less than Slow EMA." :=
  ⟨by decide, C7_invalid_grid_reported sampleData 10 10 5 5 2 3 5 10 1 40 (by decide)⟩

/-! ## Claim C10 -/

/-- Claim C10: the accuracy division `hits / total_trades` is never
evaluated with `total_trades == 0`: under the interface precondition
`min_trades ≥ 1`, the `min_trades` filter skips the combination before
scoring whenever `total_trades < min_trades`, so the division-by-zero
branch is unreachable. -/
theorem C10_accuracy_division_safe (data : List Bar) (fast slow signal : ℕ)
    (targetPct : ℚ) (maxDays minTrades : ℕ) (minAccuracy : ℚ)
    (hmt : 1 ≤ minTrades) (e : String) :
    evalCombo data fast slow signal targetPct maxDays minTrades minAccuracy ≠
      Except.error e := by
  simp only [evalCombo]
  split_ifs with h1 h2 h3 <;> try simp
  omega

/-- Witness for C10 at a concrete input. -/
theorem C10_accuracy_division_safe_witness :
    (1 : ℕ) ≤ 1 ∧
    evalCombo sampleData 2 3 2 5 10 1 40 ≠ Except.error "ZeroDivisionError" :=
  ⟨le_refl 1, C10_accuracy_division_safe sampleData 2 3 2 5 10 1 40 (le_refl 1) _⟩

/-! ## Claim C8 -/

/-- Claim C8: the core never silently computes on corrupt ordering: the
rows are sorted ascending by date before any computation (and the sorted
series is a permutation of the input, which is all that any later stage
sees), and a series of fewer than 2 bars makes the pre-scan stage fail
fast with an error (the `max_days` widget bounds `1 ≤ 10 ≤ len(data)`
are violated) instead of running normally. -/
theorem C8_sorts_dates_and_rejects_tiny_series (rows : List Bar) :
    (sortByDate rows).Sorted (fun a b => a.date ≤ b.date) ∧
    (sortByDate rows).Perm rows ∧
    (∀ data maxDays, preScan rows = Except.ok (data, maxDays) → data = sortByDate rows) ∧
    (rows.length < 2 → preScan rows = Except.error "StreamlitAPIException") := by
  refine ⟨sortByKeyAsc_sorted _ rows, sortByKeyAsc_perm _ rows, ?_, ?_⟩
  · intro data maxDays h
    simp only [preScan] at h
    rcases hni : numberInput 1 (sortByDate rows).length 10 with e | v <;> rw [hni] at h
    · cases h
    · cases h; rfl
  · intro hlen
    have hlen' : (sortByDate rows).length = rows.length :=
      (sortByKeyAsc_perm _ rows).length_eq
    simp only [preScan]
    have : numberInput 1 (sortByDate rows).length 10 = Except.error "StreamlitAPIException" := by
      simp only [numberInput, hlen']
      rw [if_neg]
      omega
    rw [this]

/-- Witness for C8: a one-bar series is sorted trivially and rejected
before the scan. -/
theorem C8_sorts_dates_and_rejects_tiny_series_witness :
    (1 : ℕ) < 2 ∧ preScan [⟨5, 1⟩] = Except.error "StreamlitAPIException" :=
  ⟨by decide, (C8_sorts_dates_and_rejects_tiny_series [⟨5, 1⟩]).2.2.2 (by decide)⟩

/-! ## Claim C5 -/

/-- Counterexample to C5: for the pair `(fast, slow) = (12, 26)` scanned
against two signal values, `ema(close, 12)` is computed twice — once per
iteration of the signal loop — not exactly once. -/
theorem C5_counterexample :
    ¬ ((emaComputationTrace [1, 2, 3] 12 26 [9, 10]).countP
        (fun p => p.1 == 12) = 1) := by
  decide

/-- Claim C5 (amended): for every `(fast, slow)` pair, `ema(close, fast)`
and `ema(close, slow)` are each computed once per tested signal value
(so `|signal_range|` times, not once per pair); since the computation is
a pure function of the close series and the window, the MACD line used
is nonetheless identical across all signal values of the pair. -/
theorem C5_ema_recomputed_per_signal (close : List ℚ) (fast slow : ℕ)
    (sigR : List ℕ) (hne : fast ≠ slow) :
    (emaComputationTrace close fast slow sigR).countP (fun p => p.1 == fast) =
      sigR.length ∧
    (emaComputationTrace close fast slow sigR).countP (fun p => p.1 == slow) =
      sigR.length ∧
    ∀ m ∈ macdLinesUsed close fast slow sigR, m = macdLine close fast slow := by
  refine ⟨?_, ?_, ?_⟩
  · induction sigR with
    | nil => rfl
    | cons s ss ih =>
      simp only [emaComputationTrace, List.flatMap_cons, List.countP_append,
        List.countP_cons, List.countP_nil, List.length_cons] at *
      have hsf : (slow == fast) = false := by
        simp [Ne.symm hne]
      simp [hsf] at *
      omega
  · induction sigR with
    | nil => rfl
    | cons s ss ih =>
      simp only [emaComputationTrace, List.flatMap_cons, List.countP_append,
        List.countP_cons, List.countP_nil, List.length_cons] at *
      have hfs : (fast == slow) = false := by
        simp [hne]
      simp [hfs] at *
      omega
  · intro m hm
    simp only [macdLinesUsed, List.mem_map] at hm
    obtain ⟨_, _, rfl⟩ := hm
    rfl

/-- Witness for C5's amended statement at a concrete input. -/
theorem C5_ema_recomputed_per_signal_witness :
    (12 : ℕ) ≠ 26 ∧
    ((emaComputationTrace [1, 2, 3] 12 26 [9, 10]).countP (fun p => p.1 == 12) =
        [9, 10].length ∧
      (emaComputationTrace [1, 2, 3] 12 26 [9, 10]).countP (fun p => p.1 == 26) =
        [9, 10].length ∧
      ∀ m ∈ macdLinesUsed [1, 2, 3] 12 26 [9, 10], m = macdLine [1, 2, 3] 12 26) :=
  ⟨by decide, C5_ema_recomputed_per_signal [1, 2, 3] 12 26 [9, 10] (by decide)⟩

/-! ## Claim C4 -/

/-- The adjusted EWM fold satisfies pandas' documented closed form: on a
NaN-free series, starting from accumulators `num`, `den ≥ 0`, the output
at position `i` is the weighted average with weights `(1-a)^(i-j)`
(plus the decayed contribution of the starting accumulators). -/
theorem ewmAdjustedAux_getElem? (a : ℚ) (ha : 0 ≤ 1 - a) :
    ∀ (xs : List ℚ) (num den : ℚ), 0 ≤ den → ∀ i < xs.length,
    (ewmAdjustedAux a num den (xs.map some))[i]? =
      some (some (((1 - a) ^ (i + 1) * num +
              ∑ j ∈ Finset.range (i + 1), (1 - a) ^ (i - j) * xs.getD j 0) /
            ((1 - a) ^ (i + 1) * den +
              ∑ j ∈ Finset.range (i + 1), (1 - a) ^ (i - j)))) := by
  intro xs
  induction xs with
  | nil => intro num den hden i hi; simp at hi
  | cons x xs ih =>
    intro num den hden i hi
    have hpos : (0 : ℚ) < (1 - a) * den + 1 := by nlinarith
    simp only [List.map_cons, ewmAdjustedAux, Option.getD_some, Option.isSome_some,
      if_true]
    cases i with
    | zero =>
      rw [List.getElem?_cons_zero, if_neg hpos.ne']
      have h1 : ∑ j ∈ Finset.range (0 + 1), (1 - a) ^ (0 - j) * (x :: xs).getD j 0 = x := by
        rw [Finset.sum_range_one]
        simp
      have h2 : ∑ j ∈ Finset.range (0 + 1), (1 - a) ^ (0 - j) = (1 : ℚ) := by
        rw [Finset.sum_range_one]
        simp
      rw [h1, h2, pow_one]
    | succ i' =>
      rw [List.getElem?_cons_succ]
      rw [ih ((1 - a) * num + x) ((1 - a) * den + 1) hpos.le i' (by simpa using hi)]
      have hnum : (1 - a) ^ (i' + 1) * ((1 - a) * num + x) +
          ∑ j ∈ Finset.range (i' + 1), (1 - a) ^ (i' - j) * xs.getD j 0 =
          (1 - a) ^ (i' + 1 + 1) * num +
          ∑ j ∈ Finset.range (i' + 1 + 1), (1 - a) ^ (i' + 1 - j) * (x :: xs).getD j 0 := by
        rw [Finset.sum_range_succ' (fun j => (1 - a) ^ (i' + 1 - j) * (x :: xs).getD j 0) (i' + 1)]
        simp only [List.getD_cons_succ, List.getD_cons_zero, Nat.succ_sub_succ,
          Nat.sub_zero]
        ring
      have hden2 : (1 - a) ^ (i' + 1) * ((1 - a) * den + 1) +
          ∑ j ∈ Finset.range (i' + 1), (1 - a) ^ (i' - j) =
          (1 - a) ^ (i' + 1 + 1) * den +
          ∑ j ∈ Finset.range (i' + 1 + 1), (1 - a) ^ (i' + 1 - j) := by
        rw [Finset.sum_range_succ' (fun j => (1 - a) ^ (i' + 1 - j)) (i' + 1)]
        simp only [Nat.succ_sub_succ, Nat.sub_zero]
        ring
      rw [hnum, hden2]

/-- Counterexample to C4: on the MACD series `[0, 1]` with signal period
9, the code's signal line (`.ewm(span=9).mean()`, pandas default
`adjust=True`) yields `5/9` at index 1, whereas the recursion used for
the price EMAs (`α = 2/(n+1)`, `ema[0] = x[0]`,
`ema[i] = α·x[i] + (1-α)·ema[i-1]`, pandas `adjust=False`) yields `1/5`:
the two computations do not implement one convention. -/
theorem C4_counterexample :
    signalLine [some 0, some 1] 9 = [some 0, some (5 / 9)] ∧
    emaRec (2 / (9 + 1)) [0, 1] = [0, 1 / 5] ∧
    ((5 : ℚ) / 9) ≠ 1 / 5 := by
  refine ⟨?_, ?_, by norm_num⟩
  · norm_num [signalLine, ewmAdjusted, ewmAdjustedAux]
  · norm_num [emaRec, emaRecAux]

/-- Claim C4 (amended): the signal line is *not* computed by the price
EMAs' recursion; it is pandas' `adjust=True` exponentially weighted
average of the MACD line: for `signal = n ≥ 1` its value at position `i`
is `Σ_{j≤i} (1-α)^(i-j)·macd[j] / Σ_{j≤i} (1-α)^(i-j)` with
`α = 2/(n+1)` (which agrees with the recursion only at position 0). -/
theorem C4_signal_line_adjusted_ewm (xs : List ℚ) (n i : ℕ) (hn : 1 ≤ n)
    (hi : i < xs.length) :
    (signalLine (xs.map some) n)[i]? =
      some (some ((∑ j ∈ Finset.range (i + 1), (1 - 2 / (n + 1 : ℚ)) ^ (i - j) * xs.getD j 0) /
            (∑ j ∈ Finset.range (i + 1), (1 - 2 / (n + 1 : ℚ)) ^ (i - j)))) := by
  have hpos : (0 : ℚ) < (n : ℚ) + 1 := by positivity
  have ha : 0 ≤ 1 - 2 / (n + 1 : ℚ) := by
    rw [sub_nonneg, div_le_one hpos]
    have : (1 : ℚ) ≤ (n : ℚ) := by exact_mod_cast hn
    linarith
  have h := ewmAdjustedAux_getElem? _ ha xs 0 0 le_rfl i hi
  simpa [signalLine, ewmAdjusted] using h

/-- Witness for C4's amended statement at a concrete input. -/
theorem C4_signal_line_adjusted_ewm_witness :
    ((1 : ℕ) ≤ 9 ∧ 1 < ([0, 1] : List ℚ).length) ∧
    (signalLine (([0, 1] : List ℚ).map some) 9)[1]? =
      some (some ((∑ j ∈ Finset.range 2, (1 - 2 / (9 + 1 : ℚ)) ^ (1 - j) * ([0, 1] : List ℚ).getD j 0) /
            (∑ j ∈ Finset.range 2, (1 - 2 / (9 + 1 : ℚ)) ^ (1 - j)))) :=
  ⟨⟨by decide, by decide⟩, C4_signal_line_adjusted_ewm [0, 1] 9 1 (by decide) (by decide)⟩

/-! ## Claim C6 -/

/-- Counterexample to C6: two results with equal `Accuracy%` recorded in
grid enumeration order (signal 9 before signal 10) come out of the
code's sort in *reverse* enumeration order, because pandas implements
`ascending=False` by reversing an ascending argsort wholesale. -/
theorem C6_counterexample :
    sortResultsDesc
        [{ fast := 12, slow := 26, signal := 9, totalTrades := 5, hits := 3,
           accuracyPct := 60, tradeLog := [] },
         { fast := 12, slow := 26, signal := 10, totalTrades := 5, hits := 3,
           accuracyPct := 60, tradeLog := [] }] =
      [{ fast := 12, slow := 26, signal := 10, totalTrades := 5, hits := 3,
         accuracyPct := 60, tradeLog := [] },
       { fast := 12, slow := 26, signal := 9, totalTrades := 5, hits := 3,
         accuracyPct := 60, tradeLog := [] }] ∧
    ¬ (sortResultsDesc
        [{ fast := 12, slow := 26, signal := 9, totalTrades := 5, hits := 3,
           accuracyPct := 60, tradeLog := [] },
         { fast := 12, slow := 26, signal := 10, totalTrades := 5, hits := 3,
           accuracyPct := 60, tradeLog := [] }] =
      [{ fast := 12, slow := 26, signal := 9, totalTrades := 5, hits := 3,
         accuracyPct := 60, tradeLog := [] },
       { fast := 12, slow := 26, signal := 10, totalTrades := 5, hits := 3,
         accuracyPct := 60, tradeLog := [] }]) := by
  constructor
  · norm_num [sortResultsDesc, sortByKeyAsc, List.insertionSort, List.orderedInsert]
  · intro h
    have h0 := congrArg (fun l => (l.headD
      { fast := 0, slow := 0, signal := 0, totalTrades := 0, hits := 0,
        accuracyPct := 0, tradeLog := [] }).signal) h
    norm_num [sortResultsDesc, sortByKeyAsc, List.insertionSort,
      List.orderedInsert] at h0

/-- Claim C6 (amended): the collected results are sorted descending by
`accuracy_pct` and at most the top 10 are returned; the ranking is a
deterministic function of the collected result list; but ties are broken
in *reverse* enumeration order (pandas reverses a stable ascending
argsort for a descending sort), not in original enumeration order. -/
theorem C6_ranking_desc_top10 (rs : List ComboResult) :
    (sortResultsDesc rs).Perm rs ∧
    (sortResultsDesc rs).Sorted (fun a b => b.accuracyPct ≤ a.accuracyPct) ∧
    (top10 rs).length ≤ 10 ∧
    (top10 rs).Sorted (fun a b => b.accuracyPct ≤ a.accuracyPct) := by
  have hperm : (sortResultsDesc rs).Perm rs :=
    (List.reverse_perm _).trans (sortByKeyAsc_perm _ rs)
  have hsorted : (sortResultsDesc rs).Sorted (fun a b => b.accuracyPct ≤ a.accuracyPct) :=
    List.pairwise_reverse.mpr (sortByKeyAsc_sorted (fun r : ComboResult => r.accuracyPct) rs)
  exact ⟨hperm, hsorted, List.length_take_le 10 _, hsorted.take⟩

/-! ## Claim C9 -/

/-- Counterexample to C9: prices are not required to be positive
(spec §3: `close > 0` recommended but not enforced).  Entering at a
close of −100 with a 5% target gives `target_price = −105`; the next bar
at −10 satisfies `close ≥ target_price`, so the trade is recorded as a
target hit, yet its return is −90%, far below the 5% target. -/
theorem C9_counterexample :
    (simulateTrade [⟨0, -100⟩, ⟨1, -10⟩] 0 5 1).targetHit = true ∧
    (simulateTrade [⟨0, -100⟩, ⟨1, -10⟩] 0 5 1).pctReturn < 5 ∧
    ((simulateTrade [⟨0, -100⟩, ⟨1, -10⟩] 0 5 1).exitPrice -
        (simulateTrade [⟨0, -100⟩, ⟨1, -10⟩] 0 5 1).entryPrice) /
      (simulateTrade [⟨0, -100⟩, ⟨1, -10⟩] 0 5 1).entryPrice * 100 < 5 := by
  refine ⟨?_, ?_, ?_⟩ <;>
    norm_num [simulateTrade, tradeWindow, lastWindowIdx, targetPrice,
      List.range', round2, roundHalfEven]

/-- Claim C9 (amended): every target-hit trade exits at a price at or
above `entry_price · (1 + target_pct/100)`; *if additionally the entry
price is positive*, its pre-rounding percentage return is ≥ the target
percentage.  (With a non-positive entry price the return bound fails,
see the counterexample.) -/
theorem C9_target_hit_exit_bounds (df : List Bar) (entry : ℕ) (targetPct : ℚ)
    (maxDays : ℕ)
    (hhit : (simulateTrade df entry targetPct maxDays).targetHit = true) :
    targetPrice df entry targetPct ≤ (simulateTrade df entry targetPct maxDays).exitPrice ∧
    (0 < (simulateTrade df entry targetPct maxDays).entryPrice →
      targetPct ≤ ((simulateTrade df entry targetPct maxDays).exitPrice -
          (simulateTrade df entry targetPct maxDays).entryPrice) /
        (simulateTrade df entry targetPct maxDays).entryPrice * 100) := by
  simp only [simulateTrade, List.filter_head?] at hhit ⊢
  cases hfd : List.find? (fun p => decide (targetPrice df entry targetPct ≤ p.2.close))
      (tradeWindow df entry maxDays) with
  | none =>
    cases hgl : (tradeWindow df entry maxDays).getLast? with
    | none => simp [hfd, hgl] at hhit
    | some lastRow => simp [hfd, hgl] at hhit
  | some hr =>
    simp only [hfd] at hhit ⊢
    have hpred := List.find?_some hfd
    have hb : targetPrice df entry targetPct ≤ hr.2.close := of_decide_eq_true hpred
    refine ⟨hb, ?_⟩
    intro hpos
    have hb' : (df.getD entry default).close * (1 + targetPct / 100) ≤ hr.2.close := hb
    rw [div_mul_eq_mul_div, le_div_iff₀ hpos]
    nlinarith [hb']

/-- Witness for C9's amended statement: a positive-price series where
the first entry hits a 5% target at bar 2. -/
theorem C9_target_hit_exit_bounds_witness :
    (simulateTrade [⟨0, 100⟩, ⟨1, 101⟩, ⟨2, 106⟩, ⟨3, 90⟩] 0 5 10).targetHit = true ∧
    (targetPrice [⟨0, 100⟩, ⟨1, 101⟩, ⟨2, 106⟩, ⟨3, 90⟩] 0 5 ≤
        (simulateTrade [⟨0, 100⟩, ⟨1, 101⟩, ⟨2, 106⟩, ⟨3, 90⟩] 0 5 10).exitPrice ∧
      (0 < (simulateTrade [⟨0, 100⟩, ⟨1, 101⟩, ⟨2, 106⟩, ⟨3, 90⟩] 0 5 10).entryPrice →
        (5 : ℚ) ≤ ((simulateTrade [⟨0, 100⟩, ⟨1, 101⟩, ⟨2, 106⟩, ⟨3, 90⟩] 0 5 10).exitPrice -
            (simulateTrade [⟨0, 100⟩, ⟨1, 101⟩, ⟨2, 106⟩, ⟨3, 90⟩] 0 5 10).entryPrice) /
          (simulateTrade [⟨0, 100⟩, ⟨1, 101⟩, ⟨2, 106⟩, ⟨3, 90⟩] 0 5 10).entryPrice * 100)) :=
  ⟨by norm_num [simulateTrade, tradeWindow, lastWindowIdx, targetPrice, List.range'],
   C9_target_hit_exit_bounds [⟨0, 100⟩, ⟨1, 101⟩, ⟨2, 106⟩, ⟨3, 90⟩] 0 5 10
     (by norm_num [simulateTrade, tradeWindow, lastWindowIdx, targetPrice, List.range'])⟩

/-! ## Claim C2 -/

/-- Claim C2: for every parameter triple, a result row is produced if
and only if the trade count (one trade per detected crossover) is
`≥ min_trades` and `accuracy = hits / len(trades) × 100 ≥ min_accuracy`,
where `hits` counts trades with `target_hit = true` and the denominator
is the full trade count; and every produced result reports
`total_trades` equal to the length of the recorded trade log.  (Stated
under the interface precondition `min_trades ≥ 1`, which the UI widget
enforces; without it the scorer could hit the division-by-zero branch.) -/
theorem C2_scorer_filter_iff (data : List Bar) (fast slow signal : ℕ)
    (targetPct : ℚ) (maxDays minTrades : ℕ) (minAccuracy : ℚ)
    (hmt : 1 ≤ minTrades) :
    ((∃ r, evalCombo data fast slow signal targetPct maxDays minTrades minAccuracy =
        Except.ok (some r)) ↔
      (minTrades ≤ (comboEntries data fast slow signal).length ∧
        minAccuracy ≤ (comboHits data fast slow signal targetPct maxDays : ℚ) /
          ((comboEntries data fast slow signal).length : ℚ) * 100)) ∧
    ∀ r, evalCombo data fast slow signal targetPct maxDays minTrades minAccuracy =
        Except.ok (some r) →
      r.totalTrades = (comboEntries data fast slow signal).length ∧
      r.tradeLog = comboTrades data fast slow signal targetPct maxDays ∧
      r.totalTrades = r.tradeLog.length ∧
      r.hits = comboHits data fast slow signal targetPct maxDays := by
  simp only [evalCombo]
  split_ifs with h1 h2 h3
  · refine ⟨⟨?_, ?_⟩, ?_⟩
    · rintro ⟨r, hr⟩; simp at hr
    · rintro ⟨hle, -⟩; exfalso; omega
    · intro r hr; simp at hr
  · exfalso; omega
  · refine ⟨⟨fun _ => ⟨by omega, h3⟩, fun _ => ⟨_, rfl⟩⟩, ?_⟩
    intro r hr
    simp only [Except.ok.injEq, Option.some.injEq] at hr
    subst hr
    refine ⟨rfl, rfl, ?_, rfl⟩
    simp [comboTrades]
  · refine ⟨⟨?_, ?_⟩, ?_⟩
    · rintro ⟨r, hr⟩; simp at hr
    · rintro ⟨-, hacc⟩; exact absurd hacc h3
    · intro r hr; simp at hr

/-- Witness for C2 at a concrete input: on the sample series the (2,3,2)
combination with `min_trades = 1`, `min_accuracy = 40` produces a result
(2 trades, 2 hits, 100% accuracy). -/
theorem C2_scorer_filter_iff_witness :
    (1 : ℕ) ≤ 1 ∧
    (((∃ r, evalCombo sampleData 2 3 2 5 10 1 40 = Except.ok (some r)) ↔
      (1 ≤ (comboEntries sampleData 2 3 2).length ∧
        (40 : ℚ) ≤ (comboHits sampleData 2 3 2 5 10 : ℚ) /
          ((comboEntries sampleData 2 3 2).length : ℚ) * 100)) ∧
    ∀ r, evalCombo sampleData 2 3 2 5 10 1 40 = Except.ok (some r) →
      r.totalTrades = (comboEntries sampleData 2 3 2).length ∧
      r.tradeLog = comboTrades sampleData 2 3 2 5 10 ∧
      r.totalTrades = r.tradeLog.length ∧
      r.hits = comboHits sampleData 2 3 2 5 10) :=
  ⟨le_refl 1, C2_scorer_filter_iff sampleData 2 3 2 5 10 1 40 (le_refl 1)⟩

/-! ## Claim C3 -/

theorem mem_trueIndices {bs : List Bool} {i : ℕ} :
    i ∈ trueIndices bs ↔ bs[i]? = some true := by
  simp only [trueIndices, List.mem_map, List.mem_filter]
  constructor
  · rintro ⟨⟨j, b⟩, ⟨hmem, hb⟩, rfl⟩
    simp only at hb
    cases hb
    exact List.mk_mem_enum_iff_getElem?.1 hmem
  · intro h
    exact ⟨(i, true), ⟨List.mk_mem_enum_iff_getElem?.2 h, rfl⟩, rfl⟩

theorem shift1_length (xs : List (Option ℚ)) : (shift1 xs).length = xs.length := by
  cases xs with
  | nil => rfl
  | cons x l => simp [shift1]

theorem shift1_cons (x : Option ℚ) (l : List (Option ℚ)) :
    shift1 (x :: l) = none :: (x :: l).dropLast := by
  simp [shift1]

theorem shift1_getElem?_zero (xs : List (Option ℚ)) (hx : xs ≠ []) :
    (shift1 xs)[0]? = some none := by
  cases xs with
  | nil => exact absurd rfl hx
  | cons x l => rw [shift1_cons, List.getElem?_cons_zero]

theorem shift1_getElem?_succ (xs : List (Option ℚ)) (j : ℕ) (hj : j + 1 < xs.length) :
    (shift1 xs)[j + 1]? = xs[j]? := by
  cases xs with
  | nil => simp at hj
  | cons x l =>
    rw [shift1_cons, List.getElem?_cons_succ, List.getElem?_dropLast, if_pos]
    simp at hj ⊢
    omega

theorem crossoverFlags_length (ms ss : List (Option ℚ)) (h : ms.length = ss.length) :
    (crossoverFlags ms ss).length = ms.length := by
  simp [crossoverFlags, shift1_length, h]

theorem crossoverFlags_getElem?_of_lt (ms ss : List (Option ℚ))
    (h : ms.length = ss.length) (i : ℕ) (hi : i < ms.length) :
    (crossoverFlags ms ss)[i]? =
      some (oLt ((shift1 ms)[i]?.getD none) ((shift1 ss)[i]?.getD none) &&
            oLt (ss[i]?.getD none) (ms[i]?.getD none)) := by
  have h1 : i < (shift1 ms).length := by rw [shift1_length]; exact hi
  have h2 : i < (shift1 ss).length := by rw [shift1_length]; omega
  have h3 : i < ss.length := by omega
  rw [crossoverFlags, List.getElem?_zipWith, List.getElem?_zipWith,
    List.getElem?_zipWith, List.getElem?_eq_getElem h1, List.getElem?_eq_getElem h2,
    List.getElem?_eq_getElem hi, List.getElem?_eq_getElem h3]
  simp

theorem crossoverFlags_map_some_true_iff (ms ss : List ℚ)
    (h : ms.length = ss.length) (i : ℕ) :
    ((crossoverFlags (ms.map some) (ss.map some))[i]? = some true) ↔
      (1 ≤ i ∧ i < ms.length ∧ ms.getD (i - 1) 0 < ss.getD (i - 1) 0 ∧
        ss.getD i 0 < ms.getD i 0) := by
  have hlm : (ms.map some).length = ms.length := by simp
  have hls : (ss.map some).length = ss.length := by simp
  have hmaps : (ms.map some).length = (ss.map some).length := by simp [h]
  by_cases hi : i < ms.length
  · cases i with
    | zero =>
      rw [crossoverFlags_getElem?_of_lt _ _ hmaps 0 (by omega)]
      rw [shift1_getElem?_zero _ (by simp; intro hc; subst hc; simp at hi)]
      simp [oLt]
    | succ j =>
      have hj : j < ms.length := by omega
      have hj' : j < ss.length := by omega
      have hj1 : j + 1 < ss.length := by omega
      rw [crossoverFlags_getElem?_of_lt _ _ hmaps (j + 1) (by omega)]
      rw [shift1_getElem?_succ _ _ (by omega : j + 1 < (ms.map some).length),
        shift1_getElem?_succ _ _ (by rw [hls]; omega)]
      rw [List.getElem?_map, List.getElem?_map, List.getElem?_map, List.getElem?_map]
      rw [List.getElem?_eq_getElem hj, List.getElem?_eq_getElem hj',
        List.getElem?_eq_getElem hj1, List.getElem?_eq_getElem (by omega : j + 1 < ms.length)]
      simp only [Option.map_some', Option.getD_some, oLt, Bool.and_eq_true,
        decide_eq_true_eq, Option.some.injEq]
      simp only [Nat.add_sub_cancel, List.getD_eq_getElem?_getD]
      rw [List.getElem?_eq_getElem hj, List.getElem?_eq_getElem hj',
        List.getElem?_eq_getElem hj1,
        List.getElem?_eq_getElem (show j + 1 < ms.length by omega)]
      simp only [Option.getD_some]
      constructor
      · rintro ⟨ha, hb⟩
        exact ⟨by omega, by omega, ha, hb⟩
      · rintro ⟨-, -, ha, hb⟩
        exact ⟨ha, hb⟩
  · have hout : (crossoverFlags (ms.map some) (ss.map some)).length ≤ i := by
      rw [crossoverFlags_length _ _ hmaps, hlm]
      omega
    rw [List.getElem?_eq_none hout]
    constructor
    · intro hc; cases hc
    · rintro ⟨-, hlt, -⟩; omega

/-- Claim C3: for every aligned MACD/signal pair, the detected entry
indices are exactly those `i` with `macd[i-1] < signal[i-1]` and
`macd[i] > signal[i]` (both strict); index 0 is never flagged; and an
index where the two lines are equal at either compared point is never
flagged. -/
theorem C3_crossover_characterization (ms ss : List ℚ)
    (hlen : ms.length = ss.length) :
    (∀ i, i ∈ crossoverIndices (ms.map some) (ss.map some) ↔
      (1 ≤ i ∧ i < ms.length ∧ ms.getD (i - 1) 0 < ss.getD (i - 1) 0 ∧
        ss.getD i 0 < ms.getD i 0)) ∧
    0 ∉ crossoverIndices (ms.map some) (ss.map some) ∧
    ∀ i, (ms.getD (i - 1) 0 = ss.getD (i - 1) 0 ∨ ms.getD i 0 = ss.getD i 0) →
      i ∉ crossoverIndices (ms.map some) (ss.map some) := by
  have hmain : ∀ i, i ∈ crossoverIndices (ms.map some) (ss.map some) ↔
      (1 ≤ i ∧ i < ms.length ∧ ms.getD (i - 1) 0 < ss.getD (i - 1) 0 ∧
        ss.getD i 0 < ms.getD i 0) :=
    fun i => mem_trueIndices.trans (crossoverFlags_map_some_true_iff ms ss hlen i)
  refine ⟨hmain, ?_, ?_⟩
  · rw [hmain 0]
    rintro ⟨h0, -⟩
    omega
  · intro i heq hmem
    rw [hmain i] at hmem
    obtain ⟨-, -, hlt1, hlt2⟩ := hmem
    rcases heq with he | he
    · rw [he] at hlt1; exact lt_irrefl _ hlt1
    · rw [he] at hlt2; exact lt_irrefl _ hlt2

/-- Witness for C3: on the aligned pair `[0, 1]` / `[1, 0]` the detector
flags exactly index 1 (a strict upward cross). -/
theorem C3_crossover_characterization_witness :
    ([(0 : ℚ), 1].length = [(1 : ℚ), 0].length) ∧
    ((∀ i, i ∈ crossoverIndices ([(0 : ℚ), 1].map some) ([(1 : ℚ), 0].map some) ↔
      (1 ≤ i ∧ i < [(0 : ℚ), 1].length ∧
        [(0 : ℚ), 1].getD (i - 1) 0 < [(1 : ℚ), 0].getD (i - 1) 0 ∧
        [(1 : ℚ), 0].getD i 0 < [(0 : ℚ), 1].getD i 0)) ∧
    0 ∉ crossoverIndices ([(0 : ℚ), 1].map some) ([(1 : ℚ), 0].map some) ∧
    ∀ i, ([(0 : ℚ), 1].getD (i - 1) 0 = [(1 : ℚ), 0].getD (i - 1) 0 ∨
        [(0 : ℚ), 1].getD i 0 = [(1 : ℚ), 0].getD i 0) →
      i ∉ crossoverIndices ([(0 : ℚ), 1].map some) ([(1 : ℚ), 0].map some)) :=
  ⟨rfl, C3_crossover_characterization [0, 1] [1, 0] rfl⟩

/-! ## Claim C1 -/

theorem tradeWindow_length (df : List Bar) (entry maxDays : ℕ) :
    (tradeWindow df entry maxDays).length =
      lastWindowIdx df entry maxDays + 1 - (entry + 1) := by
  simp [tradeWindow]

theorem mem_tradeWindow (df : List Bar) (entry maxDays : ℕ) (q : ℕ × Bar) :
    q ∈ tradeWindow df entry maxDays ↔
      (entry + 1 ≤ q.1 ∧ q.1 ≤ lastWindowIdx df entry maxDays ∧
        q.2 = df.getD q.1 default) := by
  simp only [tradeWindow, List.mem_map, List.mem_range']
  constructor
  · rintro ⟨i, ⟨k, hk, rfl⟩, rfl⟩
    exact ⟨by omega, by omega, rfl⟩
  · rintro ⟨h1, h2, h3⟩
    refine ⟨q.1, ⟨q.1 - (entry + 1), by omega, by omega⟩, ?_⟩
    cases q with
    | mk a b => simp only at h3 ⊢; rw [h3]

/-- If `find?` succeeds on a window `(range' s n).map f`, it returns the
element at the least qualifying index. -/
theorem find?_map_range'_first {α : Type} (f : ℕ → α) (pr : α → Bool) :
    ∀ (n s : ℕ) (x : α), ((List.range' s n).map f).find? pr = some x →
      ∃ i, s ≤ i ∧ i < s + n ∧ x = f i ∧ pr (f i) = true ∧
        ∀ j, s ≤ j → j < i → pr (f j) = false := by
  intro n
  induction n with
  | zero => intro s x hx; simp at hx
  | succ m ih =>
    intro s x hx
    rw [List.range'_succ, List.map_cons] at hx
    by_cases hps : pr (f s) = true
    · rw [List.find?_cons_of_pos _ hps] at hx
      cases hx
      exact ⟨s, le_refl s, by omega, rfl, hps,
        fun j hj1 hj2 => absurd hj2 (by omega)⟩
    · have hps' : pr (f s) = false := by
        revert hps; cases pr (f s) <;> simp
      rw [List.find?_cons_of_neg _ (by simp [hps'])] at hx
      obtain ⟨i, hi1, hi2, hi3, hi4, hi5⟩ := ih (s + 1) x hx
      refine ⟨i, by omega, by omega, hi3, hi4, ?_⟩
      intro j hj1 hj2
      rcases Nat.eq_or_lt_of_le hj1 with rfl | hlt
      · exact hps'
      · exact hi5 j (by omega) hj2

theorem map_range'_getLast? {α : Type} (f : ℕ → α) (s n : ℕ) (hn : n ≠ 0) :
    ((List.range' s n).map f).getLast? = some (f (s + n - 1)) := by
  rw [List.getLast?_eq_getElem?]
  have hlen : ((List.range' s n).map f).length = n := by simp
  rw [hlen, List.getElem?_eq_getElem (by simp; omega)]
  simp only [List.getElem_map, List.getElem_range', Option.some.injEq]
  congr 1
  omega

/-- Claim C1: for every entry index `e` (with `p > 0`, `max_days ≥ 1`):
the exit is the first bar of the window `[e+1, min(e+max_days, last)]`
whose close reaches `close[e]·(1+p/100)` (`target_hit = true`); if none
does, the exit is the last bar of the window (`target_hit = false`); if
the window is empty — exactly when `e` is the last bar — the exit is the
entry bar itself with the same price and date and `target_hit = false`;
and consequently `exit_index` lies in `[e+1, min(e+max_days, last)]`
except in the empty-window case, where it equals `e`. -/
theorem C1_trade_exit_spec (df : List Bar) (e : ℕ) (p : ℚ) (h : ℕ)
    (he : e < df.length) (hp : 0 < p) (hh : 1 ≤ h) :
    ((simulateTrade df e p h).targetHit = true ↔
      ∃ i, e + 1 ≤ i ∧ i ≤ lastWindowIdx df e h ∧
        targetPrice df e p ≤ (df.getD i default).close) ∧
    ((simulateTrade df e p h).targetHit = true →
      (e + 1 ≤ (simulateTrade df e p h).exitIdx ∧
        (simulateTrade df e p h).exitIdx ≤ lastWindowIdx df e h ∧
        (simulateTrade df e p h).exitPrice =
          (df.getD (simulateTrade df e p h).exitIdx default).close ∧
        (simulateTrade df e p h).exitDate =
          (df.getD (simulateTrade df e p h).exitIdx default).date ∧
        targetPrice df e p ≤ (simulateTrade df e p h).exitPrice ∧
        ∀ j, e + 1 ≤ j → j < (simulateTrade df e p h).exitIdx →
          (df.getD j default).close < targetPrice df e p)) ∧
    ((simulateTrade df e p h).targetHit = false → e + 1 ≤ lastWindowIdx df e h →
      ((simulateTrade df e p h).exitIdx = lastWindowIdx df e h ∧
        (simulateTrade df e p h).exitPrice =
          (df.getD (lastWindowIdx df e h) default).close ∧
        (simulateTrade df e p h).exitDate =
          (df.getD (lastWindowIdx df e h) default).date ∧
        ∀ j, e + 1 ≤ j → j ≤ lastWindowIdx df e h →
          (df.getD j default).close < targetPrice df e p)) ∧
    (lastWindowIdx df e h < e + 1 →
      (e = df.length - 1 ∧ (simulateTrade df e p h).targetHit = false ∧
        (simulateTrade df e p h).exitIdx = e ∧
        (simulateTrade df e p h).exitPrice = (simulateTrade df e p h).entryPrice ∧
        (simulateTrade df e p h).exitDate = (simulateTrade df e p h).entryDate)) ∧
    ((e + 1 ≤ (simulateTrade df e p h).exitIdx ∧
        (simulateTrade df e p h).exitIdx ≤ lastWindowIdx df e h) ∨
      ((simulateTrade df e p h).exitIdx = e ∧ e = df.length - 1)) := by
  simp only [simulateTrade, List.filter_head?]
  cases hfd : List.find? (fun q => decide (targetPrice df e p ≤ q.2.close))
      (tradeWindow df e h) with
  | some hr =>
    rw [tradeWindow] at hfd
    obtain ⟨i, hi1, hi2, hi3, hi4, hi5⟩ :=
      find?_map_range'_first _ _ _ _ _ hfd
    have hi2' : i ≤ lastWindowIdx df e h := by omega
    subst hi3
    have htar : targetPrice df e p ≤ (df.getD i default).close := by
      simpa using hi4
    dsimp only
    refine ⟨?_, ?_, ?_, ?_, ?_⟩
    · exact ⟨fun _ => ⟨i, hi1, hi2', htar⟩, fun _ => rfl⟩
    · intro _
      refine ⟨hi1, hi2', rfl, rfl, htar, ?_⟩
      intro j hj1 hj2
      have := hi5 j hj1 hj2
      simpa using this
    · intro hcontra; cases hcontra
    · intro hlt; exfalso; omega
    · exact Or.inl ⟨hi1, hi2'⟩
  | none =>
    have hnone := List.find?_eq_none.1 hfd
    have hall : ∀ j, e + 1 ≤ j → j ≤ lastWindowIdx df e h →
        (df.getD j default).close < targetPrice df e p := by
      intro j hj1 hj2
      have hmem : ((j, df.getD j default) : ℕ × Bar) ∈ tradeWindow df e h :=
        (mem_tradeWindow df e h _).2 ⟨hj1, hj2, rfl⟩
      have := hnone _ hmem
      simpa using this
    cases hgl : (tradeWindow df e h).getLast? with
    | some lastRow =>
      have hn : (tradeWindow df e h).length ≠ 0 := by
        intro h0
        rw [List.getLast?_eq_getElem?, List.getElem?_eq_none (by omega)] at hgl
        cases hgl
      have hle : e + 1 ≤ lastWindowIdx df e h := by
        rw [tradeWindow_length] at hn
        omega
      have hlast : lastRow =
          (lastWindowIdx df e h, df.getD (lastWindowIdx df e h) default) := by
        rw [tradeWindow] at hgl
        rw [map_range'_getLast? _ _ _ (by omega)] at hgl
        have harith : e + 1 + (lastWindowIdx df e h + 1 - (e + 1)) - 1 =
            lastWindowIdx df e h := by omega
        rw [harith] at hgl
        exact (Option.some.inj hgl).symm
      subst hlast
      dsimp only
      refine ⟨?_, ?_, ?_, ?_, ?_⟩
      · constructor
        · intro hcontra; cases hcontra
        · rintro ⟨i, hi1, hi2, hile⟩
          exact absurd hile (not_le.2 (hall i hi1 hi2))
      · intro hcontra; cases hcontra
      · intro _ _
        exact ⟨rfl, rfl, rfl, hall⟩
      · intro hlt; exfalso; omega
      · exact Or.inl ⟨hle, le_refl _⟩
    | none =>
      have hemp : (tradeWindow df e h).length = 0 := by
        by_contra hne
        rw [List.getLast?_eq_getElem?,
          List.getElem?_eq_getElem (by omega)] at hgl
        cases hgl
      have hlt : lastWindowIdx df e h < e + 1 := by
        rw [tradeWindow_length] at hemp
        omega
      have hlast' : e = df.length - 1 := by
        simp only [lastWindowIdx] at hlt
        omega
      dsimp only
      refine ⟨?_, ?_, ?_, ?_, ?_⟩
      · constructor
        · intro hcontra; cases hcontra
        · rintro ⟨i, hi1, hi2, -⟩
          exfalso; omega
      · intro hcontra; cases hcontra
      · intro _ hcontra
        exfalso; omega
      · intro _
        exact ⟨hlast', rfl, rfl, rfl, rfl⟩
      · exact Or.inr ⟨rfl, hlast'⟩

/-- Witness for C1: on a 2-bar series with a 5% target and a 1-bar
horizon, the entry at bar 0 exits at bar 1 with the target hit. -/
theorem C1_trade_exit_spec_witness :
    ((0 : ℕ) < ([⟨0, 100⟩, ⟨1, 106⟩] : List Bar).length ∧ (0 : ℚ) < 5 ∧ (1 : ℕ) ≤ 1) ∧
    ((simulateTrade [⟨0, 100⟩, ⟨1, 106⟩] 0 5 1).targetHit = true ↔
      ∃ i, 0 + 1 ≤ i ∧ i ≤ lastWindowIdx [⟨0, 100⟩, ⟨1, 106⟩] 0 1 ∧
        targetPrice [⟨0, 100⟩, ⟨1, 106⟩] 0 5 ≤
          (([⟨0, 100⟩, ⟨1, 106⟩] : List Bar).getD i default).close) :=
  ⟨⟨by decide, by norm_num, le_refl 1⟩,
    (C1_trade_exit_spec [⟨0, 100⟩, ⟨1, 106⟩] 0 5 1 (by decide) (by norm_num)
      (le_refl 1)).1⟩

end StMac
